import Mathlib

/-!
Verification of the cache-and-normalize layer of the spreadsheet proxy server
(`src/server.js`). The JavaScript source is shallowly embedded:

* JS objects built by `obj[key] = value` loops are modelled as insertion-ordered
  association lists (`Record`), where assignment updates an existing key in
  place and appends a new key at the end (exactly the JS object semantics).
* The in-memory `Map` cache is modelled as a function from keys to optional
  entries; `Date.now()` is passed explicitly as a `now : Nat` parameter.
* `crypto.createHash("md5").update(parts.join("|")).digest("hex")` is embedded
  as a full executable MD5 over the UTF-8 bytes of the joined string.
* The upstream Google-Sheets fetches are injected collaborators: each loader
  takes the fetch outcome (`Except String _`) as a parameter and reports
  whether it consulted the collaborator as a `Bool`.
-/

namespace SheetsServer

/-! ## Records: JS objects as insertion-ordered association lists -/

/-- A JS object with string values: list of (key, value) fields in insertion
order, keys unique. -/
def Record : Type := List (String × String)

instance : DecidableEq Record := by
  unfold Record
  infer_instance

instance : Inhabited Record := ⟨([] : List (String × String))⟩

/-- JS `obj[k] = v`: update the value of an existing key in place, otherwise
append the new field at the end. -/
def alSet (r : Record) (k : String) (v : String) : Record :=
  match r with
  | [] => [(k, v)]
  | p :: rest => if p.1 = k then (k, v) :: rest else p :: alSet rest k v

/-- JS `obj[k]`: the value stored under key `k`, if any. -/
def alGet (r : Record) (k : String) : Option String :=
  (r.find? (fun p => p.1 == k)).map Prod.snd

/-- Build a JS object by running `obj[k] = v` over a list of (key, value)
pairs, starting from the empty object. -/
def buildRecord (ps : List (String × String)) : Record :=
  ps.foldl (fun obj p => alSet obj p.1 p.2) []

/-! ## Decimal rendering of naturals (for the template literal `Col${i+1}`) -/

/-- ASCII digit character for `n < 10`. -/
def digitChar (n : Nat) : Char := Char.ofNat (48 + n)

/-- Decimal digits of `n`, most significant first; `fuel` bounds the recursion
and any `fuel > n` computes the true digit string. -/
def decDigitsAux : Nat → Nat → List Char
  | 0, _ => []
  | fuel + 1, n =>
    if n < 10 then [digitChar n]
    else decDigitsAux fuel (n / 10) ++ [digitChar (n % 10)]

/-- Decimal string of a natural number (what JS string interpolation produces
for a nonnegative integer). -/
def natToString (n : Nat) : String := ⟨decDigitsAux (n + 1) n⟩

/-- The synthesized column name `Col${i}` from `readSheetToJson`
(1-indexed at call sites). -/
def colName (i : Nat) : String := "Col" ++ natToString i

/-! ## String trimming over the character list (JS `String.prototype.trim`) -/

/-- Strip leading and trailing whitespace from a character list. -/
def trimList (l : List Char) : List Char :=
  ((l.dropWhile Char.isWhitespace).reverse.dropWhile Char.isWhitespace).reverse

/-- JS `(h || "").trim()` on a string cell. -/
def strTrim (s : String) : String := ⟨trimList s.data⟩

/-! ## The tabular normalizer (`readSheetToJson`, lines 151-186) -/

/-- The JSON value built by `readSheetToJson`:
`{ tab: tabName, headers, rows: data }`. -/
structure NormalizedTable where
  tab : String
  headers : List String
  rows : List Record
deriving DecidableEq, Inhabited

/-- The generated header list `Array.from({length: maxLen}, (_, i) => ...)`
of the no-headers branch: `Col1 .. ColN`. -/
def genHeaders (n : Nat) : List String :=
  (List.range n).map (fun i => colName (i + 1))

/-- The (key, value) pairs written into a record in the has-headers branch:
`headers.forEach((h, i) => { obj[h || Col(i+1)] = row[i] ?? "" })`. -/
def headerPairs (headers row : List String) : List (String × String) :=
  headers.enum.map (fun p =>
    (if p.2 = "" then colName (p.1 + 1) else p.2, row.getD p.1 ""))

/-- Body row to object, has-headers branch of `readSheetToJson`. -/
def rowToObj (headers row : List String) : Record :=
  buildRecord (headerPairs headers row)

/-- The (key, value) pairs written into a record in the no-headers branch:
`genHeaders.forEach((h, i) => { obj[h] = row[i] ?? "" })`. -/
def genPairs (maxLen : Nat) (row : List String) : List (String × String) :=
  (genHeaders maxLen).enum.map (fun p => (p.2, row.getD p.1 ""))

/-- Body row to object, no-headers branch of `readSheetToJson`. -/
def rowToObjGen (maxLen : Nat) (row : List String) : Record :=
  buildRecord (genPairs maxLen row)

/-- The pure normalization performed by `readSheetToJson` once the raw grid
`res.data.values || []` is in hand (lines 151-186 of `src/server.js`). -/
def normalize (tabName : String) (grid : List (List String)) : NormalizedTable :=
  match grid with
  | [] => { tab := tabName, headers := [], rows := [] }
  | row0 :: body =>
    let headers := row0.map strTrim
    let hasHeaders := headers.any (fun h => h.length > 0)
    if hasHeaders then
      { tab := tabName, headers := headers,
        rows := body.map (fun row => rowToObj headers row) }
    else
      let maxLen := ((row0 :: body).map (fun r => r.length)).foldl Nat.max 0
      { tab := tabName, headers := headers,
        rows := body.map (fun row => rowToObjGen maxLen row) }

/-! ## MD5 (`crypto.createHash("md5")`) over 32-bit words as `Nat % 2^32` -/

/-- Truncate to a 32-bit word. -/
def w32 (n : Nat) : Nat := n % 4294967296

/-- 32-bit left rotation. -/
def rotl32 (x s : Nat) : Nat :=
  w32 (Nat.lor (Nat.shiftLeft x s) (Nat.shiftRight x (32 - s)))

/-- 32-bit bitwise complement. -/
def not32 (x : Nat) : Nat := Nat.xor x 4294967295

/-- MD5 per-round sine-derived constants `K[0..63]`. -/
def md5K : List Nat :=
  [0xd76aa478, 0xe8c7b756, 0x242070db, 0xc1bdceee,
   0xf57c0faf, 0x4787c62a, 0xa8304613, 0xfd469501,
   0x698098d8, 0x8b44f7af, 0xffff5bb1, 0x895cd7be,
   0x6b901122, 0xfd987193, 0xa679438e, 0x49b40821,
   0xf61e2562, 0xc040b340, 0x265e5a51, 0xe9b6c7aa,
   0xd62f105d, 0x02441453, 0xd8a1e681, 0xe7d3fbc8,
   0x21e1cde6, 0xc33707d6, 0xf4d50d87, 0x455a14ed,
   0xa9e3e905, 0xfcefa3f8, 0x676f02d9, 0x8d2a4c8a,
   0xfffa3942, 0x8771f681, 0x6d9d6122, 0xfde5380c,
   0xa4beea44, 0x4bdecfa9, 0xf6bb4b60, 0xbebfbc70,
   0x289b7ec6, 0xeaa127fa, 0xd4ef3085, 0x04881d05,
   0xd9d4d039, 0xe6db99e5, 0x1fa27cf8, 0xc4ac5665,
   0xf4292244, 0x432aff97, 0xab9423a7, 0xfc93a039,
   0x655b59c3, 0x8f0ccc92, 0xffeff47d, 0x85845dd1,
   0x6fa87e4f, 0xfe2ce6e0, 0xa3014314, 0x4e0811a1,
   0xf7537e82, 0xbd3af235, 0x2ad7d2bb, 0xeb86d391]

/-- MD5 per-round left-rotation amounts `S[0..63]`. -/
def md5S : List Nat :=
  [7, 12, 17, 22, 7, 12, 17, 22, 7, 12, 17, 22, 7, 12, 17, 22,
   5, 9, 14, 20, 5, 9, 14, 20, 5, 9, 14, 20, 5, 9, 14, 20,
   4, 11, 16, 23, 4, 11, 16, 23, 4, 11, 16, 23, 4, 11, 16, 23,
   6, 10, 15, 21, 6, 10, 15, 21, 6, 10, 15, 21, 6, 10, 15, 21]

/-- UTF-8 byte sequence of a code point (what Node hashes for a JS string). -/
def utf8BytesOfCode (c : Nat) : List Nat :=
  if c < 0x80 then [c]
  else if c < 0x800 then [0xC0 + c / 64, 0x80 + c % 64]
  else if c < 0x10000 then
    [0xE0 + c / 4096, 0x80 + (c / 64) % 64, 0x80 + c % 64]
  else
    [0xF0 + c / 262144, 0x80 + (c / 4096) % 64, 0x80 + (c / 64) % 64,
     0x80 + c % 64]

/-- UTF-8 bytes of a string. -/
def strBytes (s : String) : List Nat :=
  s.data.flatMap (fun ch => utf8BytesOfCode ch.toNat)

/-- Little-endian byte decomposition (`count` bytes). -/
def bytesLE (count n : Nat) : List Nat :=
  (List.range count).map (fun i => (n / 256 ^ i) % 256)

/-- MD5 padding: append `0x80`, zero-fill to 56 mod 64, then the 8-byte
little-endian bit length. -/
def md5pad (msg : List Nat) : List Nat :=
  let len := msg.length
  let padLen := (120 - (len + 1) % 64) % 64
  msg ++ [0x80] ++ List.replicate padLen 0 ++ bytesLE 8 (8 * len)

/-- One MD5 round operation on the state `(a, b, c, d)`. -/
def md5Round (M : List Nat) (st : Nat × Nat × Nat × Nat) (i : Nat) :
    Nat × Nat × Nat × Nat :=
  let a := st.1
  let b := st.2.1
  let c := st.2.2.1
  let d := st.2.2.2
  let f :=
    if i < 16 then Nat.lor (Nat.land b c) (Nat.land (not32 b) d)
    else if i < 32 then Nat.lor (Nat.land d b) (Nat.land (not32 d) c)
    else if i < 48 then Nat.xor (Nat.xor b c) d
    else Nat.xor c (Nat.lor b (not32 d))
  let g :=
    if i < 16 then i
    else if i < 32 then (5 * i + 1) % 16
    else if i < 48 then (3 * i + 5) % 16
    else (7 * i) % 16
  let fv := w32 (f + a + md5K.getD i 0 + M.getD g 0)
  (d, w32 (b + rotl32 fv (md5S.getD i 0)), b, c)

/-- Process one 64-byte block, updating the running MD5 state. -/
def md5Block (block : List Nat) (st : Nat × Nat × Nat × Nat) :
    Nat × Nat × Nat × Nat :=
  let M := (List.range 16).map (fun j =>
    block.getD (4 * j) 0 + 256 * block.getD (4 * j + 1) 0 +
    65536 * block.getD (4 * j + 2) 0 + 16777216 * block.getD (4 * j + 3) 0)
  let r := (List.range 64).foldl (md5Round M) st
  (w32 (st.1 + r.1), w32 (st.2.1 + r.2.1), w32 (st.2.2.1 + r.2.2.1),
   w32 (st.2.2.2 + r.2.2.2))

/-- Fold `md5Block` over consecutive 64-byte chunks; `fuel` bounds the number
of chunks and any `fuel ≥ bs.length` consumes the whole input. -/
def md5BlocksAux : Nat → List Nat → Nat × Nat × Nat × Nat →
    Nat × Nat × Nat × Nat
  | 0, _, st => st
  | _, [], st => st
  | fuel + 1, b :: rest, st =>
    md5BlocksAux fuel (rest.drop 63) (md5Block ((b :: rest).take 64) st)

/-- Fold `md5Block` over consecutive 64-byte chunks. -/
def md5Blocks (bs : List Nat) (st : Nat × Nat × Nat × Nat) :
    Nat × Nat × Nat × Nat :=
  md5BlocksAux bs.length bs st

/-- Lowercase hex digit. -/
def hexDigit (n : Nat) : Char :=
  if n < 10 then Char.ofNat (48 + n) else Char.ofNat (87 + n)

/-- Two hex digits of a byte. -/
def byteHex (b : Nat) : List Char := [hexDigit (b / 16), hexDigit (b % 16)]

/-- Hex rendering of a 32-bit word, little-endian byte order (as MD5 does). -/
def wordHexLE (word : Nat) : List Char := (bytesLE 4 word).flatMap byteHex

/-- The lowercase-hex MD5 digest of a string, as produced by Node's
`crypto.createHash("md5").update(s).digest("hex")`. -/
def md5hex (s : String) : String :=
  let st := md5Blocks (md5pad (strBytes s))
    (0x67452301, 0xefcdab89, 0x98badcfe, 0x10325476)
  ⟨wordHexLE st.1 ++ wordHexLE st.2.1 ++ wordHexLE st.2.2.1 ++
    wordHexLE st.2.2.2⟩

/-- The key deriver `cacheKey(parts)` of `src/server.js`:
MD5 of the parts joined with `"|"`, as lowercase hex. -/
def cacheKey (parts : List String) : String :=
  md5hex (String.intercalate "|" parts)

/-! ## The in-memory cache (`const cache = new Map()`) -/

/-- A cache slot: `{ expiresAt: number, data: any }`. -/
structure CacheEntry (α : Type) where
  expiresAt : Nat
  data : α
deriving DecidableEq

/-- The `Map` keyed by strings, modelled extensionally. -/
def Cache (α : Type) : Type := String → Option (CacheEntry α)

/-- The empty cache. -/
def emptyCache (α : Type) : Cache α := fun _ => none

/-- JS `cache.delete(key)`. -/
def cacheDelete {α : Type} (c : Cache α) (key : String) : Cache α :=
  fun k => if k = key then none else c k

/-- `getCache(key)` of `src/server.js`, with `Date.now()` passed as `now`:
returns the stored data, or `none` after lazily deleting an entry whose
`expiresAt` lies strictly in the past. The updated map is returned alongside. -/
def getCache {α : Type} (now : Nat) (c : Cache α) (key : String) :
    Option α × Cache α :=
  match c key with
  | none => (none, c)
  | some item =>
    if now > item.expiresAt then (none, cacheDelete c key)
    else (some item.data, c)

/-- `setCache(key, data, ttlMs)` of `src/server.js`: unconditionally store
`data` under `key` with expiry `Date.now() + ttlMs`. -/
def setCache {α : Type} (now : Nat) (c : Cache α) (key : String) (data : α)
    (ttlMs : Nat) : Cache α :=
  fun k => if k = key then some ⟨now + ttlMs, data⟩ else c k

/-! ## The sheet loaders, with the upstream fetch injected as a collaborator

Each loader returns `(result, updated cache, fetched)`, where `fetched`
records whether the upstream collaborator was consulted on this call. -/

/-- The tab-title extraction of `listSheetTabs`:
`meta.data.sheets?.map((s) => s.properties?.title).filter(Boolean) || []`
(missing titles are `none`; `filter(Boolean)` also drops empty strings). -/
def extractTabs (titles : List (Option String)) : List String :=
  (titles.filterMap id).filter (fun t => t ≠ "")

/-- `listSheetTabs()` of `src/server.js`. The upstream metadata fetch is the
injected `fetch` argument; a `.error` models the awaited call throwing. -/
def listSheetTabs (sheetId : String) (now ttlMs : Nat)
    (fetch : Except String (List (Option String)))
    (c : Cache (List String)) :
    Except String (List String) × Cache (List String) × Bool :=
  match getCache now c (cacheKey ["tabs", sheetId]) with
  | (some v, c1) => (Except.ok v, c1, false)
  | (none, c1) =>
    match fetch with
    | Except.error e => (Except.error e, c1, true)
    | Except.ok titles =>
      (Except.ok (extractTabs titles),
        setCache now c1 (cacheKey ["tabs", sheetId]) (extractTabs titles)
          ttlMs, true)

/-- `readSheetToJson(tabName)` of `src/server.js`. The upstream grid fetch
(`res.data.values || []`) is the injected `fetch` argument; a `.error` models
the awaited call throwing. -/
def readSheetToJson (sheetId tabName : String) (now ttlMs : Nat)
    (fetch : Except String (List (List String)))
    (c : Cache NormalizedTable) :
    Except String NormalizedTable × Cache NormalizedTable × Bool :=
  match getCache now c (cacheKey ["data", sheetId, tabName]) with
  | (some v, c1) => (Except.ok v, c1, false)
  | (none, c1) =>
    match fetch with
    | Except.error e => (Except.error e, c1, true)
    | Except.ok grid =>
      (Except.ok (normalize tabName grid),
        setCache now c1 (cacheKey ["data", sheetId, tabName])
          (normalize tabName grid) ttlMs, true)

/-! ## The `/api/data/:tab` route handler (lines 213-235) -/

/-- The `GET /api/data/:tab` handler: 400 when `SHEET_ID` is unset, 500 when a
loader throws, 404 when the tab is not in the current tab list, 200 otherwise.
Returns `(status, tabs cache, data cache, readSheetToJson invoked)`. -/
def dataEndpointAuth (sid tab : String) (now ttlMs : Nat)
    (tabsFetch : Except String (List (Option String)))
    (gridFetch : Except String (List (List String)))
    (cTabs : Cache (List String)) (cData : Cache NormalizedTable) :
    Nat × Cache (List String) × Cache NormalizedTable × Bool :=
  match listSheetTabs sid now ttlMs tabsFetch cTabs with
  | (Except.error _, cT1, _) => (500, cT1, cData, false)
  | (Except.ok tabs, cT1, _) =>
    if tab ∈ tabs then
      match readSheetToJson sid tab now ttlMs gridFetch cData with
      | (Except.ok _, cD1, _) => (200, cT1, cD1, true)
      | (Except.error _, cD1, _) => (500, cT1, cD1, true)
    else (404, cT1, cData, false)

/-- The full handler including the `SHEET_ID` presence check. -/
def dataEndpoint (sheetId : Option String) (tab : String) (now ttlMs : Nat)
    (tabsFetch : Except String (List (Option String)))
    (gridFetch : Except String (List (List String)))
    (cTabs : Cache (List String)) (cData : Cache NormalizedTable) :
    Nat × Cache (List String) × Cache NormalizedTable × Bool :=
  match sheetId with
  | none => (400, cTabs, cData, false)
  | some sid => dataEndpointAuth sid tab now ttlMs tabsFetch gridFetch
      cTabs cData

/-! ## Lemmas about records -/

theorem alGet_nil (k : String) : alGet [] k = none := rfl

theorem alGet_cons (p : String × String) (rest : Record) (k : String) :
    alGet (p :: rest) k = if p.1 = k then some p.2 else alGet rest k := by
  by_cases h : p.1 = k <;> simp [alGet, List.find?_cons, h]

theorem alGet_alSet (r : Record) (k v k' : String) :
    alGet (alSet r k v) k' = if k' = k then some v else alGet r k' := by
  induction r with
  | nil =>
    by_cases h : k' = k <;> simp [alSet, alGet_cons, alGet_nil, h, Ne.symm]
  | cons p rest ih =>
    by_cases hp : p.1 = k
    · by_cases h : k' = k <;> simp_all [alSet, alGet_cons, Ne.symm]
    · by_cases h : k' = k <;> by_cases hq : p.1 = k' <;>
        simp_all [alSet, alGet_cons, Ne.symm]

theorem alGet_foldl (ps : List (String × String)) (r : Record) (k : String) :
    alGet (ps.foldl (fun obj p => alSet obj p.1 p.2) r) k =
      ((ps.reverse.find? (fun p => p.1 == k)).map Prod.snd).or (alGet r k) := by
  induction ps generalizing r with
  | nil => simp
  | cons p rest ih =>
    simp only [List.foldl_cons, ih, List.reverse_cons, List.find?_append]
    cases hf : rest.reverse.find? (fun q => q.1 == k) with
    | some q => simp [Option.or]
    | none =>
      by_cases h : p.1 = k <;>
        simp [alGet_alSet, List.find?_cons, h, Ne.symm, Option.or]

/-- Looking a key up in a built record finds the value of the last write with
that key. -/
theorem alGet_buildRecord (ps : List (String × String)) (k : String) :
    alGet (buildRecord ps) k =
      (ps.reverse.find? (fun p => p.1 == k)).map Prod.snd := by
  simp [buildRecord, alGet_foldl, alGet_nil]

/-- If no later write uses key `k`, the built record maps `k` to the value of
the write at that position. -/
theorem alGet_buildRecord_append (l1 l2 : List (String × String))
    (k v : String) (h2 : ∀ q ∈ l2, q.1 ≠ k) :
    alGet (buildRecord (l1 ++ (k, v) :: l2)) k = some v := by
  rw [alGet_buildRecord, List.reverse_append, List.reverse_cons,
    List.append_assoc, List.find?_append, List.find?_append]
  have h1 : l2.reverse.find? (fun p => p.1 == k) = none := by
    rw [List.find?_eq_none]
    intro x hx
    simpa using h2 x (List.mem_reverse.mp hx)
  have hk : List.find? (fun p => p.1 == k) [(k, v)] = some (k, v) := by
    simp [List.find?_cons]
  simp [h1, hk, Option.or]

/-- If position `j` is the last occurrence of its key, the built record maps
that key to the value written at `j`. -/
theorem alGet_buildRecord_last (ps : List (String × String)) (j : Nat)
    (hj : j < ps.length)
    (hlast : ∀ q ∈ ps.drop (j + 1), q.1 ≠ ps[j].1) :
    alGet (buildRecord ps) ps[j].1 = some ps[j].2 := by
  rcases hpj : ps[j] with ⟨k, v⟩
  rw [hpj] at hlast
  have hdecomp : ps = ps.take j ++ (k, v) :: ps.drop (j + 1) := by
    conv_lhs => rw [← List.take_append_drop j ps]
    rw [List.drop_eq_getElem_cons hj, hpj]
  conv_lhs => rw [hdecomp]
  exact alGet_buildRecord_append _ _ _ _ hlast

/-- A record field is defined for every key that was ever written. -/
theorem alGet_buildRecord_isSome (ps : List (String × String)) (k : String)
    (h : ∃ q ∈ ps, q.1 = k) :
    (alGet (buildRecord ps) k).isSome := by
  rw [alGet_buildRecord]
  have hs : (ps.reverse.find? (fun p => p.1 == k)).isSome := by
    rw [List.find?_isSome]
    obtain ⟨q, hq, hk⟩ := h
    exact ⟨q, List.mem_reverse.mpr hq, by simpa using hk⟩
  cases hfind : ps.reverse.find? (fun p => p.1 == k) with
  | none => rw [hfind] at hs; simp at hs
  | some q => simp

/-! ## Key-set lemmas: record fields are unique and count distinct keys -/

theorem keys_alSet (r : Record) (k v : String) :
    (alSet r k v).map Prod.fst =
      if k ∈ r.map Prod.fst then r.map Prod.fst
      else r.map Prod.fst ++ [k] := by
  induction r with
  | nil => simp [alSet]
  | cons p rest ih =>
    by_cases hp : p.1 = k
    · simp [alSet, hp]
    · simp only [alSet, if_neg hp, List.map_cons, ih]
      by_cases hm : k ∈ rest.map Prod.fst <;> simp [hm, hp, Ne.symm hp]

theorem nodup_keys_alSet (r : Record) (k v : String)
    (h : (r.map Prod.fst).Nodup) : ((alSet r k v).map Prod.fst).Nodup := by
  rw [keys_alSet]
  by_cases hm : k ∈ r.map Prod.fst
  · simpa [hm]
  · simp only [if_neg hm]
    exact ((List.perm_append_singleton k _).nodup_iff).mpr (h.cons hm)

theorem keys_foldl_toFinset (ps : List (String × String)) (r : Record) :
    ((ps.foldl (fun obj p => alSet obj p.1 p.2) r).map Prod.fst).toFinset =
      (r.map Prod.fst).toFinset ∪ (ps.map Prod.fst).toFinset := by
  induction ps generalizing r with
  | nil => simp
  | cons p rest ih =>
    simp only [List.foldl_cons, ih, keys_alSet, List.map_cons,
      List.toFinset_cons]
    by_cases hm : p.1 ∈ r.map Prod.fst
    · rw [if_pos hm]
      have hmem : p.1 ∈ (r.map Prod.fst).toFinset := List.mem_toFinset.mpr hm
      rw [Finset.union_insert,
        Finset.insert_eq_self.mpr (Finset.mem_union_left _ hmem)]
    · rw [if_neg hm]
      ext x
      simp only [List.toFinset_append, Finset.mem_union, Finset.mem_insert,
        List.mem_toFinset, List.toFinset_cons, List.mem_singleton,
        List.toFinset_nil, Finset.mem_singleton, Finset.not_mem_empty,
        Finset.mem_insert]
      tauto

theorem nodup_keys_foldl (ps : List (String × String)) (r : Record)
    (h : (r.map Prod.fst).Nodup) :
    ((ps.foldl (fun obj p => alSet obj p.1 p.2) r).map Prod.fst).Nodup := by
  induction ps generalizing r with
  | nil => exact h
  | cons p rest ih => exact ih _ (nodup_keys_alSet _ _ _ h)

theorem nodup_keys_buildRecord (ps : List (String × String)) :
    ((buildRecord ps).map Prod.fst).Nodup :=
  nodup_keys_foldl ps [] (by simp)

/-- The number of fields of a built record is the number of distinct keys
written into it. -/
theorem length_buildRecord (ps : List (String × String)) :
    (buildRecord ps).length = (ps.map Prod.fst).dedup.length := by
  have h1 : (buildRecord ps).length = ((buildRecord ps).map Prod.fst).length :=
    (List.length_map _ _).symm
  rw [h1, ← List.toFinset_card_of_nodup (nodup_keys_buildRecord ps)]
  have h2 : ((buildRecord ps).map Prod.fst).toFinset =
      (ps.map Prod.fst).toFinset := by
    have := keys_foldl_toFinset ps []
    simpa [buildRecord] using this
  rw [h2, List.card_toFinset]

/-- A list that is not duplicate-free dedups to a strictly shorter list. -/
theorem dedup_length_lt_of_not_nodup {l : List String} (h : ¬ l.Nodup) :
    l.dedup.length < l.length := by
  rcases Nat.lt_or_ge l.dedup.length l.length with hlt | hge
  · exact hlt
  · exfalso
    have hsub := List.dedup_sublist l
    have hle := hsub.length_le
    have : l.dedup = l := hsub.eq_of_length (Nat.le_antisymm hle hge)
    exact h (this ▸ List.nodup_dedup l)

/-! ## Injectivity of the decimal column names -/

theorem digitChar_inj (a b : Nat) (ha : a < 10) (hb : b < 10) :
    digitChar a = digitChar b → a = b := by
  interval_cases a <;> interval_cases b <;> decide

theorem decDigitsAux_ne_nil (fuel n : Nat) (h : n < fuel) :
    decDigitsAux fuel n ≠ [] := by
  match fuel with
  | f + 1 =>
    show (if n < 10 then _ else _) ≠ []
    by_cases h10 : n < 10 <;> simp [h10]

theorem decDigitsAux_inj (f1 : Nat) : ∀ (f2 a b : Nat), a < f1 → b < f2 →
    decDigitsAux f1 a = decDigitsAux f2 b → a = b := by
  induction f1 with
  | zero => intro f2 a b ha; omega
  | succ f ih =>
    intro f2 a b ha hb heq
    match f2 with
    | g + 1 =>
      by_cases ha10 : a < 10 <;> by_cases hb10 : b < 10 <;>
        simp only [decDigitsAux, ha10, hb10, if_pos, if_neg, if_true,
          if_false] at heq
      · exact digitChar_inj a b ha10 hb10 (List.cons.injEq .. ▸ heq).1
      · exfalso
        have hne := decDigitsAux_ne_nil g (b / 10) (by omega)
        have hlen := congrArg List.length heq
        simp [List.length_append] at hlen
        exact hne hlen
      · exfalso
        have hne := decDigitsAux_ne_nil f (a / 10) (by omega)
        have hlen := congrArg List.length heq
        simp [List.length_append] at hlen
        exact hne hlen
      · have hparts := List.append_inj' heq (by simp)
        have hdiv : a / 10 = b / 10 :=
          ih g (a / 10) (b / 10) (by omega) (by omega) hparts.1
        have hmod : a % 10 = b % 10 :=
          digitChar_inj _ _ (Nat.mod_lt _ (by omega)) (Nat.mod_lt _ (by omega))
            (List.cons.injEq .. ▸ hparts.2).1
        omega

theorem natToString_inj (a b : Nat) (h : natToString a = natToString b) :
    a = b := by
  have hdata : decDigitsAux (a + 1) a = decDigitsAux (b + 1) b := by
    have := congrArg String.data h
    simpa [natToString] using this
  exact decDigitsAux_inj (a + 1) (b + 1) a b (by omega) (by omega) hdata

theorem colName_inj (a b : Nat) (h : colName a = colName b) : a = b := by
  apply natToString_inj
  have hdata := congrArg String.data h
  simp only [colName, String.data_append] at hdata
  have : (natToString a).data = (natToString b).data :=
    List.append_cancel_left hdata
  cases h1 : natToString a with
  | mk l1 =>
    cases h2 : natToString b with
    | mk l2 =>
      rw [h1, h2] at this
      simp at this
      rw [this]

/-! ## Characterizing the normalizer -/

/-- The key used for column position `j` in the has-headers branch:
`headers[j]` when non-empty after trimming, else the synthesized `Col(j+1)`. -/
def keyFor (headers : List String) (j : Nat) : String :=
  if headers.getD j "" = "" then colName (j + 1) else headers.getD j ""

theorem headerPairs_length (headers row : List String) :
    (headerPairs headers row).length = headers.length := by
  simp [headerPairs, List.enum_length]

theorem headerPairs_getElem (headers row : List String) (j : Nat)
    (hjp : j < (headerPairs headers row).length) :
    (headerPairs headers row)[j] = (keyFor headers j, row.getD j "") := by
  have hj : j < headers.length := by
    rw [← headerPairs_length headers row]
    exact hjp
  simp only [headerPairs, List.getElem_map, List.getElem_enum, keyFor,
    List.getD_eq_getElem _ _ hj]

theorem genHeaders_length (n : Nat) : (genHeaders n).length = n := by
  simp [genHeaders]

theorem genHeaders_getElem (n j : Nat)
    (hjp : j < (genHeaders n).length) :
    (genHeaders n)[j] = colName (j + 1) := by
  simp [genHeaders]

theorem genPairs_length (n : Nat) (row : List String) :
    (genPairs n row).length = n := by
  simp [genPairs, List.enum_length, genHeaders_length]

theorem genPairs_getElem (n : Nat) (row : List String) (j : Nat)
    (hjp : j < (genPairs n row).length) :
    (genPairs n row)[j] = (colName (j + 1), row.getD j "") := by
  have hg : j < (genHeaders n).length := by
    rw [genHeaders_length]
    rw [← genPairs_length n row]
    exact hjp
  simp only [genPairs, List.getElem_map, List.getElem_enum]
  rw [genHeaders_getElem n j hg]

/-- Empty grid: `readSheetToJson` short-circuits to the empty table. -/
theorem normalize_nil (tabName : String) :
    normalize tabName [] = ⟨tabName, [], []⟩ := rfl

/-- The has-headers branch of the normalizer. -/
theorem normalize_hasHeaders (tabName : String) (row0 : List String)
    (body : List (List String))
    (hhas : (row0.map strTrim).any (fun h => h.length > 0) = true) :
    normalize tabName (row0 :: body) =
      ⟨tabName, row0.map strTrim,
        body.map (fun row => rowToObj (row0.map strTrim) row)⟩ := by
  simp [normalize, hhas]

/-- The no-headers branch of the normalizer: only the body rows (the grid
minus the former header row) are mapped. -/
theorem normalize_noHeaders (tabName : String) (row0 : List String)
    (body : List (List String))
    (hno : (row0.map strTrim).any (fun h => h.length > 0) = false) :
    normalize tabName (row0 :: body) =
      ⟨tabName, row0.map strTrim,
        body.map (fun row => rowToObjGen
          (((row0 :: body).map (fun r => r.length)).foldl Nat.max 0) row)⟩ := by
  simp [normalize, hno]

/-- Field lookup in a has-headers record, general form: position `j` wins
whenever no strictly later position uses the same key. -/
theorem rowToObj_alGet_last (headers row : List String) (j : Nat)
    (hj : j < headers.length)
    (hlast : ∀ j', j < j' → j' < headers.length →
      keyFor headers j' ≠ keyFor headers j) :
    alGet (rowToObj headers row) (keyFor headers j) =
      some (row.getD j "") := by
  have hjp : j < (headerPairs headers row).length := by
    rw [headerPairs_length]; exact hj
  have hpj := headerPairs_getElem headers row j hjp
  have h1 : (headerPairs headers row)[j].1 = keyFor headers j := by
    rw [hpj]
  have h2 : (headerPairs headers row)[j].2 = row.getD j "" := by
    rw [hpj]
  rw [← h1, ← h2]
  apply alGet_buildRecord_last _ j hjp
  intro q hq
  rw [List.mem_iff_getElem] at hq
  obtain ⟨m, hm, hqe⟩ := hq
  have hmlen : j + 1 + m < (headerPairs headers row).length := by
    rw [List.length_drop] at hm; omega
  have hidx : q = (headerPairs headers row)[j + 1 + m] := by
    rw [← hqe, List.getElem_drop]
  have hlt : j + 1 + m < headers.length := by
    rw [headerPairs_length] at hmlen; exact hmlen
  have := headerPairs_getElem headers row (j + 1 + m) hmlen
  rw [h1, hidx, this]
  exact hlast (j + 1 + m) (by omega) hlt

/-- Every header position has a defined field in a has-headers record. -/
theorem rowToObj_alGet_isSome (headers row : List String) (j : Nat)
    (hj : j < headers.length) :
    (alGet (rowToObj headers row) (keyFor headers j)).isSome := by
  apply alGet_buildRecord_isSome
  have hjp : j < (headerPairs headers row).length := by
    rw [headerPairs_length]
    exact hj
  refine ⟨(headerPairs headers row)[j], List.getElem_mem hjp, ?_⟩
  rw [headerPairs_getElem headers row j hjp]

/-- Field lookup in a no-headers record: the `Col(j+1)` keys never collide, so
position `j` always holds `row[j] ?? ""`. -/
theorem rowToObjGen_alGet (n : Nat) (row : List String) (j : Nat)
    (hj : j < n) :
    alGet (rowToObjGen n row) (colName (j + 1)) = some (row.getD j "") := by
  have hjp : j < (genPairs n row).length := by rw [genPairs_length]; exact hj
  have hpj := genPairs_getElem n row j hjp
  have h1 : (genPairs n row)[j].1 = colName (j + 1) := by rw [hpj]
  have h2 : (genPairs n row)[j].2 = row.getD j "" := by rw [hpj]
  rw [← h1, ← h2]
  apply alGet_buildRecord_last _ j hjp
  intro q hq
  rw [List.mem_iff_getElem] at hq
  obtain ⟨m, hm, hqe⟩ := hq
  have hmlen : j + 1 + m < (genPairs n row).length := by
    rw [List.length_drop] at hm; omega
  have hidx : q = (genPairs n row)[j + 1 + m] := by
    rw [← hqe, List.getElem_drop]
  have hlt : j + 1 + m < n := by rw [genPairs_length] at hmlen; exact hmlen
  have := genPairs_getElem n row (j + 1 + m) hmlen
  rw [h1, hidx, this]
  intro hcol
  have := colName_inj _ _ hcol
  omega

/-- Upper bound: every row length is at most the fold-maximum. -/
theorem le_foldl_max (l : List Nat) (a : Nat) :
    (∀ x ∈ l, x ≤ l.foldl Nat.max a) ∧ a ≤ l.foldl Nat.max a := by
  induction l generalizing a with
  | nil => simp
  | cons y ys ih =>
    refine ⟨?_, ?_⟩
    · intro x hx
      rcases List.mem_cons.mp hx with rfl | hmem
      · exact le_trans (Nat.le_max_right a x) (ih (Nat.max a x)).2
      · exact (ih (Nat.max a y)).1 x hmem
    · exact le_trans (Nat.le_max_left a y) (ih (Nat.max a y)).2

/-- Attainment: the fold-maximum is the seed or one of the elements. -/
theorem foldl_max_mem (l : List Nat) (a : Nat) :
    l.foldl Nat.max a = a ∨ l.foldl Nat.max a ∈ l := by
  induction l generalizing a with
  | nil => simp
  | cons y ys ih =>
    rw [List.foldl_cons]
    rcases ih (Nat.max a y) with h | h
    · rw [h]
      rcases Nat.le_total a y with hle | hle
      · right
        have hm : Nat.max a y = y := Nat.max_eq_right hle
        rw [hm]
        exact List.mem_cons_self y ys
      · left
        exact Nat.max_eq_left hle
    · right
      exact List.mem_cons_of_mem y h

/-! ## Claim theorems -/

/-- C8: for every tab name, normalizing the empty grid returns the table with
that tab name, empty headers, and empty rows. -/
theorem claim_c8_empty_grid (tabName : String) :
    normalize tabName [] = ⟨tabName, [], []⟩ :=
  normalize_nil tabName

/-- C2: for every key and time `now`, `getCache` returns absent and removes
the entry when `now > expiresAt` of the stored entry, and otherwise returns
the stored value without changing the cache (hence the entry's expiry); an
expired entry is never returned. -/
theorem claim_c2_getCache_expiry {α : Type} (c : Cache α) (key : String)
    (now : Nat) (e : CacheEntry α) (h : c key = some e) :
    (now > e.expiresAt →
      getCache now c key = (none, cacheDelete c key) ∧
      (getCache now c key).2 key = none) ∧
    (¬ now > e.expiresAt → getCache now c key = (some e.data, c)) ∧
    (∀ v, (getCache now c key).1 = some v →
      ¬ now > e.expiresAt ∧ v = e.data) := by
  unfold getCache
  rw [h]
  by_cases hx : now > e.expiresAt
  · simp [hx, cacheDelete]
  · simp [hx]

/-- Witness for C2 at a concrete expired entry. -/
theorem claim_c2_witness :
    ((fun k => if k = "k1" then some ⟨10, 42⟩ else none) : Cache Nat) "k1" =
        some ⟨10, 42⟩ ∧
    ((11 > 10 →
      getCache 11 (fun k => if k = "k1" then some ⟨10, 42⟩ else none) "k1" =
        (none, cacheDelete (fun k => if k = "k1" then some ⟨10, 42⟩ else none)
          "k1") ∧
      (getCache 11 (fun k => if k = "k1" then some ⟨10, 42⟩ else none)
        "k1").2 "k1" = none) ∧
    (¬ 11 > 10 →
      getCache 11 (fun k => if k = "k1" then some ⟨10, 42⟩ else none) "k1" =
        (some 42, fun k => if k = "k1" then some ⟨10, 42⟩ else none)) ∧
    (∀ v, (getCache 11 (fun k => if k = "k1" then some ⟨10, 42⟩ else none)
        "k1").1 = some v → ¬ 11 > 10 ∧ v = 42)) :=
  ⟨rfl, claim_c2_getCache_expiry
    (fun k => if k = "k1" then some ⟨10, 42⟩ else none) "k1" 11 ⟨10, 42⟩ rfl⟩

/-- C7: `setCache` replaces any existing entry for the key with expiry
`now + ttl`, and a `getCache` performed before that expiry returns the newly
set value, never the previously stored one. -/
theorem claim_c7_setCache_overwrite {α : Type} (c : Cache α) (key : String)
    (v : α) (ttl now nowq : Nat) :
    setCache now c key v ttl key = some ⟨now + ttl, v⟩ ∧
    (¬ nowq > now + ttl →
      getCache nowq (setCache now c key v ttl) key =
        (some v, setCache now c key v ttl)) ∧
    (∀ w : CacheEntry α, c key = some w → w.data ≠ v → ¬ nowq > now + ttl →
      (getCache nowq (setCache now c key v ttl) key).1 ≠ some w.data) := by
  refine ⟨by simp [setCache], ?_, ?_⟩
  · intro hq
    unfold getCache setCache
    simp [hq]
  · intro w _ hw hq
    unfold getCache setCache
    simp [hq]
    exact fun heq => hw heq.symm

/-- Witness for C7: overwriting an entry and reading it back before expiry. -/
theorem claim_c7_witness :
    setCache 5 (fun k => if k = "k1" then some ⟨10, 42⟩ else none) "k1" 7 100
        "k1" = some ⟨105, 7⟩ ∧
    (¬ 50 > 105 →
      getCache 50 (setCache 5
          (fun k => if k = "k1" then some ⟨10, 42⟩ else none) "k1" 7 100)
        "k1" =
      (some 7, setCache 5
          (fun k => if k = "k1" then some ⟨10, 42⟩ else none) "k1" 7 100)) ∧
    (∀ w : CacheEntry Nat,
      (fun k => if k = "k1" then some ⟨10, 42⟩ else none : Cache Nat) "k1" =
          some w →
      w.data ≠ 7 → ¬ 50 > 105 →
      (getCache 50 (setCache 5
          (fun k => if k = "k1" then some ⟨10, 42⟩ else none) "k1" 7 100)
        "k1").1 ≠ some w.data) :=
  claim_c7_setCache_overwrite
    (fun k => if k = "k1" then some ⟨10, 42⟩ else none) "k1" 7 100 5 50

set_option maxRecDepth 100000 in
/-- C6: `cacheKey` is a deterministic pure function of its ordered parts (no
randomness or process-local salt), and the keys for
`["data","S1","Tab A"]` and `["data","S1","Tab B"]` differ. -/
theorem claim_c6_cacheKey_deterministic :
    (∀ parts : List String, cacheKey parts = cacheKey parts) ∧
    cacheKey ["data", "S1", "Tab A"] ≠ cacheKey ["data", "S1", "Tab B"] := by
  exact ⟨fun _ => rfl, by decide⟩

/-- C5: with the derived key absent from the cache, two `readSheetToJson`
calls within the TTL window perform exactly one upstream fetch — the second
call (whatever its would-be fetch outcome) returns the cached normalized
table and does not consult the collaborator — and a third call after the TTL
has elapsed fetches again. -/
theorem claim_c5_single_fetch_within_ttl (sheetId tab : String)
    (ttl t0 t1 t2 : Nat) (c0 : Cache NormalizedTable)
    (g1 : List (List String))
    (f2 f3 : Except String (List (List String)))
    (hmiss : c0 (cacheKey ["data", sheetId, tab]) = none)
    (h1 : ¬ t1 > t0 + ttl) (h2 : t2 > t0 + ttl) :
    (readSheetToJson sheetId tab t0 ttl (Except.ok g1) c0).2.2 = true ∧
    readSheetToJson sheetId tab t1 ttl f2
        (readSheetToJson sheetId tab t0 ttl (Except.ok g1) c0).2.1 =
      (Except.ok (normalize tab g1),
        (readSheetToJson sheetId tab t0 ttl (Except.ok g1) c0).2.1, false) ∧
    (readSheetToJson sheetId tab t2 ttl f3
        (readSheetToJson sheetId tab t1 ttl f2
          (readSheetToJson sheetId tab t0 ttl
            (Except.ok g1) c0).2.1).2.1).2.2 = true := by
  have hget0 : getCache t0 c0 (cacheKey ["data", sheetId, tab]) =
      (none, c0) := by
    unfold getCache
    rw [hmiss]
  have hstep1 : readSheetToJson sheetId tab t0 ttl (Except.ok g1) c0 =
      (Except.ok (normalize tab g1),
        setCache t0 c0 (cacheKey ["data", sheetId, tab])
          (normalize tab g1) ttl, true) := by
    unfold readSheetToJson
    rw [hget0]
  have hc1 : setCache t0 c0 (cacheKey ["data", sheetId, tab])
      (normalize tab g1) ttl (cacheKey ["data", sheetId, tab]) =
      some ⟨t0 + ttl, normalize tab g1⟩ := by
    simp [setCache]
  have hget1 : getCache t1
      (setCache t0 c0 (cacheKey ["data", sheetId, tab])
        (normalize tab g1) ttl) (cacheKey ["data", sheetId, tab]) =
      (some (normalize tab g1),
        setCache t0 c0 (cacheKey ["data", sheetId, tab])
          (normalize tab g1) ttl) := by
    unfold getCache
    rw [hc1]
    simp [h1]
  have hstep2 : readSheetToJson sheetId tab t1 ttl f2
      (setCache t0 c0 (cacheKey ["data", sheetId, tab])
        (normalize tab g1) ttl) =
      (Except.ok (normalize tab g1),
        setCache t0 c0 (cacheKey ["data", sheetId, tab])
          (normalize tab g1) ttl, false) := by
    unfold readSheetToJson
    rw [hget1]
  have hget2 : getCache t2
      (setCache t0 c0 (cacheKey ["data", sheetId, tab])
        (normalize tab g1) ttl) (cacheKey ["data", sheetId, tab]) =
      (none, cacheDelete
        (setCache t0 c0 (cacheKey ["data", sheetId, tab])
          (normalize tab g1) ttl) (cacheKey ["data", sheetId, tab])) := by
    unfold getCache
    rw [hc1]
    simp [h2]
  have hstep3 : (readSheetToJson sheetId tab t2 ttl f3
      (setCache t0 c0 (cacheKey ["data", sheetId, tab])
        (normalize tab g1) ttl)).2.2 = true := by
    unfold readSheetToJson
    rw [hget2]
    cases f3 <;> rfl
  refine ⟨by rw [hstep1], ?_, ?_⟩
  · rw [hstep1]
    exact hstep2
  · rw [hstep1]
    have h21 : (readSheetToJson sheetId tab t1 ttl f2
        (setCache t0 c0 (cacheKey ["data", sheetId, tab])
          (normalize tab g1) ttl)).2.1 =
        setCache t0 c0 (cacheKey ["data", sheetId, tab])
          (normalize tab g1) ttl := by
      rw [hstep2]
    rw [h21]
    exact hstep3

/-- Witness for C5 starting from the empty cache at concrete times. -/
theorem claim_c5_witness :
    emptyCache NormalizedTable (cacheKey ["data", "S1", "T"]) = none ∧
    ((readSheetToJson "S1" "T" 0 10 (Except.ok [["a"]])
        (emptyCache NormalizedTable)).2.2 = true ∧
     readSheetToJson "S1" "T" 3 10 (Except.error "down")
        (readSheetToJson "S1" "T" 0 10 (Except.ok [["a"]])
          (emptyCache NormalizedTable)).2.1 =
      (Except.ok (normalize "T" [["a"]]),
        (readSheetToJson "S1" "T" 0 10 (Except.ok [["a"]])
          (emptyCache NormalizedTable)).2.1, false) ∧
     (readSheetToJson "S1" "T" 11 10 (Except.ok [["b"]])
        (readSheetToJson "S1" "T" 3 10 (Except.error "down")
          (readSheetToJson "S1" "T" 0 10 (Except.ok [["a"]])
            (emptyCache NormalizedTable)).2.1).2.1).2.2 = true) :=
  ⟨rfl, claim_c5_single_fetch_within_ttl "S1" "T" 10 0 3 11
    (emptyCache NormalizedTable) [["a"]] (Except.error "down")
    (Except.ok [["b"]]) rfl (by decide) (by decide)⟩

/-- A data cache holding an entry, already expired at time 10, under the key
`readSheetToJson` derives for sheet `"S1"` and tab `"T"`. -/
def expiredDataCache : Cache NormalizedTable :=
  fun k => if k = cacheKey ["data", "S1", "T"] then
    some ⟨3, ⟨"T", [], []⟩⟩ else none

set_option maxRecDepth 100000 in
/-- C4 counterexample: with an expired entry under the derived key, a call
whose upstream fetch fails does propagate the error, but the cache is not
left exactly as it was — the lookup already removed the expired entry. -/
theorem claim_c4_counterexample :
    expiredDataCache (cacheKey ["data", "S1", "T"]) ≠ none ∧
    (readSheetToJson "S1" "T" 10 300 (Except.error "netfail")
      expiredDataCache).1 = Except.error "netfail" ∧
    (readSheetToJson "S1" "T" 10 300 (Except.error "netfail")
      expiredDataCache).2.1 (cacheKey ["data", "S1", "T"]) = none := by
  refine ⟨?_, rfl, rfl⟩
  unfold expiredDataCache
  rw [if_pos rfl]
  exact fun h => Option.noConfusion h

/-- C4 amended: a failing upstream fetch propagates its error and neither
creates nor overwrites any cache entry; the cache is returned exactly as the
initial lookup left it — unchanged at every other key, unchanged entirely
when the derived key was absent or unexpired, with only an already-expired
entry under the derived key lazily evicted. This holds for both
`readSheetToJson` and `listSheetTabs`. -/
theorem claim_c4_amended (sheetId tab : String) (now ttl : Nat) (e : String)
    (cD : Cache NormalizedTable) (cT : Cache (List String)) :
    (((readSheetToJson sheetId tab now ttl (Except.error e) cD).2.2 = true →
        (readSheetToJson sheetId tab now ttl (Except.error e) cD).1 =
          Except.error e) ∧
     (readSheetToJson sheetId tab now ttl (Except.error e) cD).2.1 =
       (getCache now cD (cacheKey ["data", sheetId, tab])).2 ∧
     (∀ k, k ≠ cacheKey ["data", sheetId, tab] →
       (readSheetToJson sheetId tab now ttl (Except.error e) cD).2.1 k =
         cD k) ∧
     (∀ k, cD k = none →
       (readSheetToJson sheetId tab now ttl (Except.error e) cD).2.1 k =
         none) ∧
     (cD (cacheKey ["data", sheetId, tab]) = none →
       (readSheetToJson sheetId tab now ttl (Except.error e) cD).2.1 = cD) ∧
     (∀ ent, cD (cacheKey ["data", sheetId, tab]) = some ent →
       ¬ now > ent.expiresAt →
       (readSheetToJson sheetId tab now ttl (Except.error e) cD).2.1 = cD) ∧
     (∀ ent, cD (cacheKey ["data", sheetId, tab]) = some ent →
       now > ent.expiresAt →
       (readSheetToJson sheetId tab now ttl (Except.error e) cD).2.1
         (cacheKey ["data", sheetId, tab]) = none)) ∧
    (((listSheetTabs sheetId now ttl (Except.error e) cT).2.2 = true →
        (listSheetTabs sheetId now ttl (Except.error e) cT).1 =
          Except.error e) ∧
     (listSheetTabs sheetId now ttl (Except.error e) cT).2.1 =
       (getCache now cT (cacheKey ["tabs", sheetId])).2 ∧
     (∀ k, k ≠ cacheKey ["tabs", sheetId] →
       (listSheetTabs sheetId now ttl (Except.error e) cT).2.1 k = cT k) ∧
     (∀ k, cT k = none →
       (listSheetTabs sheetId now ttl (Except.error e) cT).2.1 k = none) ∧
     (cT (cacheKey ["tabs", sheetId]) = none →
       (listSheetTabs sheetId now ttl (Except.error e) cT).2.1 = cT) ∧
     (∀ ent, cT (cacheKey ["tabs", sheetId]) = some ent →
       ¬ now > ent.expiresAt →
       (listSheetTabs sheetId now ttl (Except.error e) cT).2.1 = cT) ∧
     (∀ ent, cT (cacheKey ["tabs", sheetId]) = some ent →
       now > ent.expiresAt →
       (listSheetTabs sheetId now ttl (Except.error e) cT).2.1
         (cacheKey ["tabs", sheetId]) = none)) := by
  constructor
  · rcases hk : cD (cacheKey ["data", sheetId, tab]) with _ | ent
    · have hget : getCache now cD (cacheKey ["data", sheetId, tab]) =
          (none, cD) := by
        unfold getCache
        rw [hk]
      have hstep : readSheetToJson sheetId tab now ttl (Except.error e) cD =
          (Except.error e, cD, true) := by
        unfold readSheetToJson
        rw [hget]
      rw [hstep, hget]
      refine ⟨fun _ => rfl, rfl, fun k _ => rfl, fun k hnone => hnone,
        fun _ => rfl, ?_, ?_⟩
      · intro ent hsome _
        exact Option.noConfusion hsome
      · intro ent hsome _
        exact Option.noConfusion hsome
    · by_cases hx : now > ent.expiresAt
      · have hget : getCache now cD (cacheKey ["data", sheetId, tab]) =
            (none, cacheDelete cD (cacheKey ["data", sheetId, tab])) := by
          unfold getCache
          rw [hk]
          simp [hx]
        have hstep : readSheetToJson sheetId tab now ttl (Except.error e)
            cD = (Except.error e,
              cacheDelete cD (cacheKey ["data", sheetId, tab]), true) := by
          unfold readSheetToJson
          rw [hget]
        rw [hstep, hget]
        refine ⟨fun _ => rfl, rfl, ?_, ?_, ?_, ?_, ?_⟩
        · intro k hkk
          show cacheDelete cD (cacheKey ["data", sheetId, tab]) k = cD k
          unfold cacheDelete
          rw [if_neg hkk]
        · intro k hnone
          show cacheDelete cD (cacheKey ["data", sheetId, tab]) k = none
          unfold cacheDelete
          by_cases hkk : k = cacheKey ["data", sheetId, tab]
          · rw [if_pos hkk]
          · rw [if_neg hkk]
            exact hnone
        · intro hnone
          exact Option.noConfusion hnone
        · intro ent2 hsome hlive
          exfalso
          have heq : ent = ent2 := Option.some.inj hsome
          exact absurd hx (heq ▸ hlive)
        · intro ent2 _ _
          show cacheDelete cD (cacheKey ["data", sheetId, tab])
            (cacheKey ["data", sheetId, tab]) = none
          unfold cacheDelete
          rw [if_pos rfl]
      · have hget : getCache now cD (cacheKey ["data", sheetId, tab]) =
            (some ent.data, cD) := by
          unfold getCache
          rw [hk]
          simp [hx]
        have hstep : readSheetToJson sheetId tab now ttl (Except.error e)
            cD = (Except.ok ent.data, cD, false) := by
          unfold readSheetToJson
          rw [hget]
        rw [hstep, hget]
        refine ⟨?_, rfl, fun k _ => rfl, fun k hnone => hnone,
          fun _ => rfl, fun ent2 _ _ => rfl, ?_⟩
        · intro hfl
          exact Bool.noConfusion hfl
        · intro ent2 hsome hexp
          exfalso
          have heq : ent = ent2 := Option.some.inj hsome
          rw [← heq] at hexp
          exact absurd hexp hx
  · rcases hk : cT (cacheKey ["tabs", sheetId]) with _ | ent
    · have hget : getCache now cT (cacheKey ["tabs", sheetId]) =
          (none, cT) := by
        unfold getCache
        rw [hk]
      have hstep : listSheetTabs sheetId now ttl (Except.error e) cT =
          (Except.error e, cT, true) := by
        unfold listSheetTabs
        rw [hget]
      rw [hstep, hget]
      refine ⟨fun _ => rfl, rfl, fun k _ => rfl, fun k hnone => hnone,
        fun _ => rfl, ?_, ?_⟩
      · intro ent hsome _
        exact Option.noConfusion hsome
      · intro ent hsome _
        exact Option.noConfusion hsome
    · by_cases hx : now > ent.expiresAt
      · have hget : getCache now cT (cacheKey ["tabs", sheetId]) =
            (none, cacheDelete cT (cacheKey ["tabs", sheetId])) := by
          unfold getCache
          rw [hk]
          simp [hx]
        have hstep : listSheetTabs sheetId now ttl (Except.error e) cT =
            (Except.error e,
              cacheDelete cT (cacheKey ["tabs", sheetId]), true) := by
          unfold listSheetTabs
          rw [hget]
        rw [hstep, hget]
        refine ⟨fun _ => rfl, rfl, ?_, ?_, ?_, ?_, ?_⟩
        · intro k hkk
          show cacheDelete cT (cacheKey ["tabs", sheetId]) k = cT k
          unfold cacheDelete
          rw [if_neg hkk]
        · intro k hnone
          show cacheDelete cT (cacheKey ["tabs", sheetId]) k = none
          unfold cacheDelete
          by_cases hkk : k = cacheKey ["tabs", sheetId]
          · rw [if_pos hkk]
          · rw [if_neg hkk]
            exact hnone
        · intro hnone
          exact Option.noConfusion hnone
        · intro ent2 hsome hlive
          exfalso
          have heq : ent = ent2 := Option.some.inj hsome
          exact absurd hx (heq ▸ hlive)
        · intro ent2 _ _
          show cacheDelete cT (cacheKey ["tabs", sheetId])
            (cacheKey ["tabs", sheetId]) = none
          unfold cacheDelete
          rw [if_pos rfl]
      · have hget : getCache now cT (cacheKey ["tabs", sheetId]) =
            (some ent.data, cT) := by
          unfold getCache
          rw [hk]
          simp [hx]
        have hstep : listSheetTabs sheetId now ttl (Except.error e) cT =
            (Except.ok ent.data, cT, false) := by
          unfold listSheetTabs
          rw [hget]
        rw [hstep, hget]
        refine ⟨?_, rfl, fun k _ => rfl, fun k hnone => hnone,
          fun _ => rfl, fun ent2 _ _ => rfl, ?_⟩
        · intro hfl
          exact Bool.noConfusion hfl
        · intro ent2 hsome hexp
          exfalso
          have heq : ent = ent2 := Option.some.inj hsome
          rw [← heq] at hexp
          exact absurd hexp hx

/-- Witness for C4 at a concrete empty cache and failing fetch. -/
theorem claim_c4_witness :
    (readSheetToJson "S1" "T" 5 300 (Except.error "boom")
      (emptyCache NormalizedTable)).1 = Except.error "boom" ∧
    (readSheetToJson "S1" "T" 5 300 (Except.error "boom")
      (emptyCache NormalizedTable)).2.1 = emptyCache NormalizedTable ∧
    (listSheetTabs "S1" 5 300 (Except.error "boom")
      (emptyCache (List String))).2.1 = emptyCache (List String) :=
  ⟨(claim_c4_amended "S1" "T" 5 300 "boom" (emptyCache NormalizedTable)
      (emptyCache (List String))).1.1 rfl,
   (claim_c4_amended "S1" "T" 5 300 "boom" (emptyCache NormalizedTable)
      (emptyCache (List String))).1.2.2.2.2.1 rfl,
   (claim_c4_amended "S1" "T" 5 300 "boom" (emptyCache NormalizedTable)
      (emptyCache (List String))).2.2.2.2.2.1 rfl⟩

/-- C9: when the requested tab is absent from the current `listSheetTabs`
result, the data endpoint answers 404, leaves the data cache untouched, and
never invokes `readSheetToJson` (hence never the grid-fetch collaborator). -/
theorem claim_c9_tab_not_found (sid tab : String) (now ttlMs : Nat)
    (tabsFetch : Except String (List (Option String)))
    (gridFetch : Except String (List (List String)))
    (cT : Cache (List String)) (cD : Cache NormalizedTable)
    (tabs : List String)
    (hok : (listSheetTabs sid now ttlMs tabsFetch cT).1 = Except.ok tabs)
    (hmem : tab ∉ tabs) :
    (dataEndpoint (some sid) tab now ttlMs tabsFetch gridFetch cT cD).1 =
      404 ∧
    (dataEndpoint (some sid) tab now ttlMs tabsFetch gridFetch cT cD).2.2.1 =
      cD ∧
    (dataEndpoint (some sid) tab now ttlMs tabsFetch gridFetch cT cD).2.2.2 =
      false := by
  have hred : dataEndpoint (some sid) tab now ttlMs tabsFetch gridFetch
      cT cD = dataEndpointAuth sid tab now ttlMs tabsFetch gridFetch
      cT cD := rfl
  rw [hred]
  unfold dataEndpointAuth
  rcases hls : listSheetTabs sid now ttlMs tabsFetch cT with ⟨res, cT1, b⟩
  rw [hls] at hok
  simp only at hok
  subst hok
  simp [hmem]

/-- Witness for C9: a concrete request for a missing tab. -/
theorem claim_c9_witness :
    (listSheetTabs "S1" 0 300 (Except.ok [some "Alpha", none, some ""])
      (emptyCache (List String))).1 = Except.ok ["Alpha"] ∧
    "Beta" ∉ ["Alpha"] ∧
    (dataEndpoint (some "S1") "Beta" 0 300
      (Except.ok [some "Alpha", none, some ""])
      (Except.ok [["x"]]) (emptyCache (List String))
      (emptyCache NormalizedTable)).1 = 404 ∧
    (dataEndpoint (some "S1") "Beta" 0 300
      (Except.ok [some "Alpha", none, some ""])
      (Except.ok [["x"]]) (emptyCache (List String))
      (emptyCache NormalizedTable)).2.2.2 = false := by
  have happ := claim_c9_tab_not_found "S1" "Beta" 0 300
    (Except.ok [some "Alpha", none, some ""]) (Except.ok [["x"]])
    (emptyCache (List String)) (emptyCache NormalizedTable) ["Alpha"]
    rfl (by decide)
  exact ⟨rfl, by decide, happ.1, happ.2.2⟩

/-- A nonempty string has positive length. -/
theorem strLength_pos (s : String) (h : s ≠ "") : 0 < s.length := by
  cases s with
  | mk data =>
    cases data with
    | nil => exact absurd rfl h
    | cons c cs => simp [String.length]

/-- A key that was ever written is among the built record fields. -/
theorem mem_keys_buildRecord (ps : List (String × String)) (k : String)
    (h : ∃ q ∈ ps, q.1 = k) : k ∈ (buildRecord ps).map Prod.fst := by
  have ht := keys_foldl_toFinset ps []
  have hk : k ∈ (ps.map Prod.fst).toFinset := by
    rw [List.mem_toFinset]
    obtain ⟨q, hq, hqk⟩ := h
    exact hqk ▸ List.mem_map_of_mem Prod.fst hq
  have : k ∈ ((buildRecord ps).map Prod.fst).toFinset := by
    rw [show buildRecord ps = ps.foldl (fun obj p => alSet obj p.1 p.2) []
        from rfl, ht]
    simp only [List.map_nil, List.toFinset_nil, Finset.empty_union]
    exact hk
  exact List.mem_toFinset.mp this

set_option maxRecDepth 100000 in
/-- C1 counterexample: on the no-headers example grid of the spec, the code
maps only the two body rows into records — the former all-empty header row is
dropped — so the claimed 3 records (one per grid row) are refuted. -/
theorem claim_c1_counterexample :
    (normalize "T" [["", "", ""], ["a", "b", "c"], ["d", "e"]]).rows.length
      = 2 ∧
    (normalize "T" [["", "", ""], ["a", "b", "c"], ["d", "e"]]).rows.length
      ≠ 3 := by
  exact ⟨by decide, by decide⟩

/-- C1 amended: in the no-headers branch the column count is the maximum row
length across the entire grid (row 0 included), names `Col1..ColN` are
synthesized, and the body rows — the grid minus the former header row — are
mapped into records, each holding `ColJ ↦ row[j] ?? ""`; a 3-row grid whose
first row is all-empty thus yields 2 records. -/
theorem claim_c1_amended (tabName : String) (row0 : List String)
    (body : List (List String))
    (hno : (row0.map strTrim).any (fun h => h.length > 0) = false) :
    (normalize tabName (row0 :: body)).headers = row0.map strTrim ∧
    (normalize tabName (row0 :: body)).rows.length = body.length ∧
    (∀ r ∈ row0 :: body,
      r.length ≤ ((row0 :: body).map (fun r => r.length)).foldl Nat.max 0) ∧
    (∃ r ∈ row0 :: body,
      r.length = ((row0 :: body).map (fun r => r.length)).foldl Nat.max 0) ∧
    (∀ i, i < body.length →
      ∀ j, j < ((row0 :: body).map (fun r => r.length)).foldl Nat.max 0 →
        alGet ((normalize tabName (row0 :: body)).rows.getD i [])
          (colName (j + 1)) = some ((body.getD i []).getD j "")) := by
  have hn := normalize_noHeaders tabName row0 body hno
  rw [hn]
  refine ⟨rfl, by simp, ?_, ?_, ?_⟩
  · intro r hr
    exact (le_foldl_max _ 0).1 r.length
      (List.mem_map_of_mem (fun r => r.length) hr)
  · rcases foldl_max_mem ((row0 :: body).map (fun r => r.length)) 0 with
      h0 | hmem
    · refine ⟨row0, List.mem_cons_self row0 body, ?_⟩
      have hub := (le_foldl_max ((row0 :: body).map
        (fun r => r.length)) 0).1 row0.length
        (List.mem_map_of_mem (fun r => r.length)
          (List.mem_cons_self row0 body))
      omega
    · rw [List.mem_map] at hmem
      obtain ⟨r, hr, hfr⟩ := hmem
      exact ⟨r, hr, hfr⟩
  · intro i hi j hj
    have hi2 : i < (body.map (fun row => rowToObjGen
        (((row0 :: body).map (fun r => r.length)).foldl Nat.max 0)
        row)).length := by
      simpa using hi
    rw [List.getD_eq_getElem _ _ hi2, List.getElem_map,
      ← List.getD_eq_getElem body [] hi]
    exact rowToObjGen_alGet _ _ j hj

/-- Witness for C1 amended on a concrete all-blank first row. -/
theorem claim_c1_amended_witness :
    (normalize "T" [["", " "], ["a", "b", "c"], ["d"]]).rows.length = 2 ∧
    alGet ((normalize "T" [["", " "], ["a", "b", "c"], ["d"]]).rows.getD 1 [])
      (colName 3) = some "" := by
  have happ := claim_c1_amended "T" ["", " "] [["a", "b", "c"], ["d"]]
    (by decide)
  exact ⟨happ.2.1, happ.2.2.2.2 1 (by decide) 2 (by decide)⟩

set_option maxRecDepth 100000 in
/-- C3 counterexample: with the duplicate header name `A` at positions 0 and
1, the single record field `A` holds the right-most value `y`; there is no
field at column position 0 carrying `row[0] = x` as the claim requires. -/
theorem claim_c3_counterexample :
    alGet ((normalize "T" [["A", "A"], ["x", "y"]]).rows.getD 0 []) "A"
      ≠ some "x" ∧
    alGet ((normalize "T" [["A", "A"], ["x", "y"]]).rows.getD 0 []) "A"
      = some "y" := by
  exact ⟨by decide, by decide⟩

/-- C3 amended: in the has-headers branch each body row yields a record in
which every header position `j` has a defined field under the key
`headers[j]` (or `Col(j+1)` when empty), and that key holds
`row[j] ?? ""` whenever no strictly later column position uses the same key
(with duplicate keys the right-most position wins); no field is ever
undefined. -/
theorem claim_c3_amended (tabName : String) (row0 : List String)
    (body : List (List String))
    (hhas : (row0.map strTrim).any (fun h => h.length > 0) = true) :
    (normalize tabName (row0 :: body)).rows.length = body.length ∧
    (∀ i, i < body.length → ∀ j, j < (row0.map strTrim).length →
      (alGet ((normalize tabName (row0 :: body)).rows.getD i [])
        (keyFor (row0.map strTrim) j)).isSome) ∧
    (∀ i, i < body.length → ∀ j, j < (row0.map strTrim).length →
      (∀ j2, j < j2 → j2 < (row0.map strTrim).length →
        keyFor (row0.map strTrim) j2 ≠ keyFor (row0.map strTrim) j) →
      alGet ((normalize tabName (row0 :: body)).rows.getD i [])
        (keyFor (row0.map strTrim) j) =
          some ((body.getD i []).getD j "")) := by
  have hn := normalize_hasHeaders tabName row0 body hhas
  rw [hn]
  have hrow : ∀ i, i < body.length →
      (body.map (fun row => rowToObj (row0.map strTrim) row)).getD i [] =
        rowToObj (row0.map strTrim) (body.getD i []) := by
    intro i hi
    have hi2 : i < (body.map
        (fun row => rowToObj (row0.map strTrim) row)).length := by
      simpa using hi
    rw [List.getD_eq_getElem _ _ hi2, List.getElem_map,
      ← List.getD_eq_getElem body [] hi]
  refine ⟨by simp, ?_, ?_⟩
  · intro i hi j hj
    rw [hrow i hi]
    exact rowToObj_alGet_isSome _ _ j hj
  · intro i hi j hj hlast
    rw [hrow i hi]
    exact rowToObj_alGet_last _ _ j hj hlast

/-- Witness for C3 amended on the has-headers example grid. -/
theorem claim_c3_amended_witness :
    (normalize "T" [["Name", "Age"], ["Ana", "30"], ["Leo"]]).rows.length
      = 2 ∧
    (alGet ((normalize "T" [["Name", "Age"], ["Ana", "30"],
      ["Leo"]]).rows.getD 1 [])
        (keyFor (["Name", "Age"].map strTrim) 1)).isSome ∧
    alGet ((normalize "T" [["Name", "Age"], ["Ana", "30"],
      ["Leo"]]).rows.getD 1 [])
        (keyFor (["Name", "Age"].map strTrim) 1) = some "" := by
  have happ := claim_c3_amended "T" ["Name", "Age"] [["Ana", "30"], ["Leo"]]
    (by decide)
  refine ⟨happ.1, happ.2.1 1 (by decide) 1 (by decide), ?_⟩
  have hv := happ.2.2 1 (by decide) 1 (by decide) (fun j2 h1 h2 => by
    have hlen : (List.map strTrim ["Name", "Age"]).length = 2 := rfl
    omega)
  exact hv

/-- C10: when the same non-empty trimmed header name occupies two column
positions `j < j2`, every record holds exactly one field under that name; the
record has strictly fewer fields than there are header positions; and when
`j2` is the right-most such position that field holds `row[j2] ?? ""` — the
values of the earlier duplicate columns are dropped. -/
theorem claim_c10_duplicate_headers (tabName : String) (row0 : List String)
    (body : List (List String)) (j j2 : Nat)
    (hj : j < (row0.map strTrim).length)
    (hj2 : j2 < (row0.map strTrim).length)
    (hlt : j < j2)
    (hne : (row0.map strTrim).getD j "" ≠ "")
    (hdup : (row0.map strTrim).getD j2 "" = (row0.map strTrim).getD j "") :
    ∀ i, i < body.length →
      List.count ((row0.map strTrim).getD j "")
        (((normalize tabName (row0 :: body)).rows.getD i []).map Prod.fst)
        = 1 ∧
      ((normalize tabName (row0 :: body)).rows.getD i []).length <
        (row0.map strTrim).length ∧
      ((∀ l, j2 < l → l < (row0.map strTrim).length →
          keyFor (row0.map strTrim) l ≠ (row0.map strTrim).getD j "") →
        alGet ((normalize tabName (row0 :: body)).rows.getD i [])
          ((row0.map strTrim).getD j "") =
            some ((body.getD i []).getD j2 "")) := by
  have hgd : (row0.map strTrim).getD j "" = (row0.map strTrim)[j] :=
    List.getD_eq_getElem _ _ hj
  have hpos : 0 < ((row0.map strTrim)[j]).length :=
    strLength_pos _ (hgd ▸ hne)
  have hhas : (row0.map strTrim).any (fun h => h.length > 0) = true := by
    rw [List.any_eq_true]
    exact ⟨(row0.map strTrim)[j], List.getElem_mem hj, by
      simpa using hpos⟩
  have hn := normalize_hasHeaders tabName row0 body hhas
  rw [hn]
  have hkj : keyFor (row0.map strTrim) j = (row0.map strTrim).getD j "" := by
    unfold keyFor
    rw [if_neg hne]
  have hkj2 : keyFor (row0.map strTrim) j2 =
      (row0.map strTrim).getD j "" := by
    unfold keyFor
    rw [hdup, if_neg hne]
  intro i hi
  have hi2 : i < (body.map
      (fun row => rowToObj (row0.map strTrim) row)).length := by
    simpa using hi
  have hrow : (body.map (fun row => rowToObj (row0.map strTrim)
      row)).getD i [] = rowToObj (row0.map strTrim) (body.getD i []) := by
    rw [List.getD_eq_getElem _ _ hi2, List.getElem_map,
      ← List.getD_eq_getElem body [] hi]
  rw [hrow]
  have hjp : j < (headerPairs (row0.map strTrim) (body.getD i [])).length :=
    by rw [headerPairs_length]; exact hj
  have hj2p : j2 < (headerPairs (row0.map strTrim)
      (body.getD i [])).length := by
    rw [headerPairs_length]; exact hj2
  have hmem : (row0.map strTrim).getD j "" ∈
      (rowToObj (row0.map strTrim) (body.getD i [])).map Prod.fst := by
    apply mem_keys_buildRecord
    refine ⟨(headerPairs (row0.map strTrim) (body.getD i []))[j],
      List.getElem_mem hjp, ?_⟩
    rw [headerPairs_getElem _ _ j hjp]
    exact hkj
  refine ⟨?_, ?_, ?_⟩
  · exact List.count_eq_one_of_mem (nodup_keys_buildRecord _) hmem
  · rw [show rowToObj (row0.map strTrim) (body.getD i []) =
        buildRecord (headerPairs (row0.map strTrim) (body.getD i []))
        from rfl, length_buildRecord]
    have hnd : ¬ ((headerPairs (row0.map strTrim)
        (body.getD i [])).map Prod.fst).Nodup := by
      intro hnd
      have hjm : j < ((headerPairs (row0.map strTrim)
          (body.getD i [])).map Prod.fst).length := by
        simpa [headerPairs_length] using hj
      have hj2m : j2 < ((headerPairs (row0.map strTrim)
          (body.getD i [])).map Prod.fst).length := by
        simpa [headerPairs_length] using hj2
      have e1 : ((headerPairs (row0.map strTrim)
          (body.getD i [])).map Prod.fst)[j] =
          keyFor (row0.map strTrim) j := by
        rw [List.getElem_map]
        rw [headerPairs_getElem _ _ j hjp]
      have e2 : ((headerPairs (row0.map strTrim)
          (body.getD i [])).map Prod.fst)[j2] =
          keyFor (row0.map strTrim) j2 := by
        rw [List.getElem_map]
        rw [headerPairs_getElem _ _ j2 hj2p]
      have heq : ((headerPairs (row0.map strTrim)
          (body.getD i [])).map Prod.fst)[j] =
          ((headerPairs (row0.map strTrim)
          (body.getD i [])).map Prod.fst)[j2] := by
        rw [e1, e2, hkj, hkj2]
      have := (hnd.getElem_inj_iff).mp heq
      omega
    have hlen := dedup_length_lt_of_not_nodup hnd
    have hlen2 : ((headerPairs (row0.map strTrim)
        (body.getD i [])).map Prod.fst).length =
        (row0.map strTrim).length := by
      rw [List.length_map, headerPairs_length]
    omega
  · intro hlater
    have hlast : ∀ l, j2 < l → l < (row0.map strTrim).length →
        keyFor (row0.map strTrim) l ≠ keyFor (row0.map strTrim) j2 := by
      intro l h1 h2
      rw [hkj2]
      exact hlater l h1 h2
    have hv := rowToObj_alGet_last (row0.map strTrim) (body.getD i [])
      j2 hj2 hlast
    rw [hkj2] at hv
    exact hv

/-- Witness for C10 on a concrete grid with a duplicated header. -/
theorem claim_c10_witness :
    List.count "N"
      (((normalize "T" [["N", "Age", "N"], ["1", "2", "3"]]).rows.getD 0
        []).map Prod.fst) = 1 ∧
    ((normalize "T" [["N", "Age", "N"], ["1", "2", "3"]]).rows.getD 0
      []).length < 3 ∧
    alGet ((normalize "T" [["N", "Age", "N"], ["1", "2", "3"]]).rows.getD 0
      []) "N" = some "3" := by
  have happ := claim_c10_duplicate_headers "T" ["N", "Age", "N"]
    [["1", "2", "3"]] 0 2 (by decide) (by decide) (by decide) (by decide)
    (by decide) 0 (by decide)
  exact ⟨happ.1, happ.2.1, happ.2.2 (fun l h1 h2 => by
    have hlen : (List.map strTrim ["N", "Age", "N"]).length = 3 := rfl
    omega)⟩

end SheetsServer
